import Mathlib

/-!
Verification of the NBA GM simulator trade engine (`models.py`, `gm_agent.py`).

Shallow embedding conventions:
* Python `float` salaries, stats and valuation arithmetic are modelled as
  exact rationals (`ℚ`).
* Python `Dict[str, Team]` (`LeagueState.teams`) is modelled by its list of
  values in insertion order; every lookup in the code under study goes
  through `get_team_by_abbreviation`, which scans the values, and every
  mutation goes through the object returned by that scan, which is the first
  value whose abbreviation matches.
* In-place mutation of a `Team` object held in the league dictionary is
  modelled by rewriting the first matching entry of the list
  (`updateTeamByAbbr`); sequential attribute assignments become sequential
  rewrites, which also reproduces Python aliasing when the two teams of a
  trade resolve to the same object.
* `datetime.now()` results are modelled by an explicit `Timestamp` record
  threaded as an argument; `random.random()` draws likewise become explicit
  rational arguments.
* The Anthropic / MCP calls are external; functions that consume their
  result are modelled as functions of an explicit outcome value.
-/

namespace NbaGm

/-- A wall-clock instant, the part of `datetime` the code observes:
calendar fields down to microseconds. -/
structure Timestamp where
  year : Nat
  month : Nat
  day : Nat
  hour : Nat
  minute : Nat
  second : Nat
  microsecond : Nat
deriving DecidableEq, Repr

/-- `models.Player`. `stats` is the Python `Dict[str, float]`, modelled as an
association list. -/
structure Player where
  id : String
  name : String
  position : String
  age : Int
  height : String
  weight : Int
  salary : ℚ
  contract_years : Int
  stats : List (String × ℚ) := []
deriving DecidableEq, Repr

/-- `models.DraftPick` (field `protected` renamed: Lean keyword). -/
structure DraftPick where
  year : Int
  round : Int
  original_team : String
  protectedFlag : Bool := false
  protection_details : Option String := none
deriving DecidableEq, Repr

/-- `models.Team`. -/
structure Team where
  id : String
  name : String
  abbreviation : String
  city : String
  conference : String
  division : String
  players : List Player
  draft_picks : List DraftPick
  salary_cap : ℚ := 123000000
  luxury_tax : ℚ := 150000000
deriving DecidableEq, Repr

/-- `Team.total_salary`. -/
def Team.total_salary (t : Team) : ℚ :=
  (t.players.map (fun p => p.salary)).sum

/-- `models.Trade`. The pick descriptors are `Dict[str, Any]` payloads that
the code only ever copies verbatim; they are modelled as raw key-value
lists. -/
structure Trade where
  id : String
  team1 : String
  team2 : String
  team1_players : List String := []
  team2_players : List String := []
  team1_picks : List (List (String × String)) := []
  team2_picks : List (List (String × String)) := []
  status : String := "proposed"
  proposed_by : String
  timestamp : Timestamp
  counter_trade_id : Option String := none
deriving DecidableEq, Repr

/-- `models.TradeProposal`. -/
structure TradeProposal where
  trade : Trade
  message : String
deriving DecidableEq, Repr

/-- `models.TradeResponse`. -/
structure TradeResponse where
  trade_id : String
  status : String
  message : String
  counter_trade : Option Trade := none
deriving DecidableEq, Repr

/-- `models.LeagueState`: the team dictionary (as its value list, see module
header) plus the trade ledger. -/
structure LeagueState where
  teams : List Team
  trades : List Trade := []
deriving DecidableEq, Repr

/-- `LeagueState.get_team_by_abbreviation`: first team whose abbreviation
matches, if any. -/
def LeagueState.get_team_by_abbreviation (s : LeagueState) (abbr : String) : Option Team :=
  s.teams.find? (fun t => t.abbreviation == abbr)

/-- Rewrite the first team of the list whose abbreviation matches `abbr`
with `f`; models an attribute assignment on the object returned by
`get_team_by_abbreviation`. -/
def updateTeamByAbbr (teams : List Team) (abbr : String) (f : Team → Team) : List Team :=
  match teams with
  | [] => []
  | t :: ts => if t.abbreviation == abbr then f t :: ts else t :: updateTeamByAbbr ts abbr f

/-- The `for ... break` loop of `execute_trade` lines 153-156: set the status
of the first ledger entry with the given id to `"accepted"`. -/
def markFirstAccepted (trades : List Trade) (tid : String) : List Trade :=
  match trades with
  | [] => []
  | t :: ts => if t.id == tid then { t with status := "accepted" } :: ts
               else t :: markFirstAccepted ts tid

/-- `LeagueState.execute_trade` (models.py lines 118-163). Returns the new
state together with the boolean result. The two collection loops run before
any mutation; the four roster assignments are sequential first-match
rewrites (see module header for the aliasing argument). -/
def executeTrade (s : LeagueState) (trade : Trade) : LeagueState × Bool :=
  match s.get_team_by_abbreviation trade.team1, s.get_team_by_abbreviation trade.team2 with
  | some team1, some team2 =>
    let team1_players_to_trade :=
      trade.team1_players.filterMap (fun pid => team1.players.find? (fun p => p.id == pid))
    let team2_players_to_trade :=
      trade.team2_players.filterMap (fun pid => team2.players.find? (fun p => p.id == pid))
    let ts1 := updateTeamByAbbr s.teams trade.team1
      (fun t => { t with players := t.players.filter (fun p => !(trade.team1_players.contains p.id)) })
    let ts2 := updateTeamByAbbr ts1 trade.team2
      (fun t => { t with players := t.players.filter (fun p => !(trade.team2_players.contains p.id)) })
    let ts3 := updateTeamByAbbr ts2 trade.team1
      (fun t => { t with players := t.players ++ team2_players_to_trade })
    let ts4 := updateTeamByAbbr ts3 trade.team2
      (fun t => { t with players := t.players ++ team1_players_to_trade })
    let trades1 := markFirstAccepted s.trades trade.id
    let trades2 := if trades1.any (fun t => t.id == trade.id) then trades1
                   else trades1 ++ [{ trade with status := "accepted" }]
    ({ teams := ts4, trades := trades2 }, true)
  | _, _ => (s, false)

/-! ### Valuation engine (`gm_agent.py`) -/

/-- Python `dict.get(key, 0)` on the stats dictionary. -/
def statGet (stats : List (String × ℚ)) (key : String) : ℚ :=
  match stats.find? (fun kv => kv.1 == key) with
  | some kv => kv.2
  | none => 0

/-- The position keys of the needs dictionary built by
`GMAgent._analyze_team_needs` (the duplicated `"SF"` entry of the Python
literal collapses), in insertion order. -/
def posList : List String := ["PG", "SG", "SF", "PF", "C"]

/-- `_analyze_team_needs` for one position: players at that position divided
by the ideal count 2. -/
def needsOf (team : Team) (pos : String) : ℚ :=
  ((team.players.filter (fun p => p.position == pos)).length : ℚ) / 2

/-- The `position_need_factor` of `evaluate_player`: `2.0 - needs[pos]` when
the position is a needs key, else `1.0`. -/
def positionNeedFactor (team : Team) (pos : String) : ℚ :=
  if posList.contains pos then 2 - needsOf team pos else 1

/-- The `age_factor` of `evaluate_player` (gm_agent.py lines 74-81):
`0.8 + (age-19)*0.05` when `age < 23`, `1.0` when `24 ≤ age ≤ 29`, and the
declining-value branch `1.0 - (age-30)*0.05` otherwise (which age 23 also
falls into). -/
def ageFactor (age : Int) : ℚ :=
  if age < 23 then 4/5 + ((age : ℚ) - 19) * (1/20)
  else if 24 ≤ age ∧ age ≤ 29 then 1
  else 1 - ((age : ℚ) - 30) * (1/20)

/-- The `contract_factor` of `evaluate_player`: `1.0 - (contract_years-1)*0.05`. -/
def contractFactor (contract_years : Int) : ℚ :=
  1 - ((contract_years : ℚ) - 1) * (1/20)

/-- `GMAgent.evaluate_player` (gm_agent.py lines 58-101), with the agent's
needs context `self.needs` represented by the roster snapshot `ctxTeam` it
was computed from (`self.team` at construction). -/
def evaluatePlayer (ctxTeam : Team) (player : Player) : ℚ :=
  let ppg := statGet player.stats "ppg"
  let rpg := statGet player.stats "rpg"
  let apg := statGet player.stats "apg"
  let base_value := ppg * 1 + rpg * (7/10) + apg * (7/10)
  let position_need_factor := positionNeedFactor ctxTeam player.position
  let age_factor := ageFactor player.age
  let contract_factor := contractFactor player.contract_years
  let salary_million := player.salary / 1000000
  let salary_efficiency := if salary_million > 0 then base_value / salary_million else base_value
  let normalized_efficiency := min (max (salary_efficiency / 10) (1/2)) (3/2)
  base_value * position_need_factor * age_factor * contract_factor * normalized_efficiency

/-- A GM agent: its team abbreviation, the shared league state, and
`self.team`, the roster object found by abbreviation at construction (also
the snapshot `self.needs` is computed from). -/
structure GMAgent where
  team_abbr : String
  league_state : LeagueState
  team : Team
deriving DecidableEq, Repr

/-- The dictionary returned by `GMAgent.evaluate_trade`. -/
structure TradeEvaluation where
  our_value : ℚ
  their_value : ℚ
  value_difference : ℚ
  salary_difference : ℚ
  current_over_cap : Bool
  new_over_cap : Bool
  current_over_tax : Bool
  new_over_tax : Bool
  position_balance : List (String × Int)
  acceptable : Bool
  counter_needed : Bool
  reasoning : String
deriving DecidableEq, Repr

/-- `GMAgent._get_trade_reasoning`; only `value_difference` is inspected. -/
def getTradeReasoning (value_difference : ℚ) : String :=
  if value_difference > 10 then
    "This trade is highly favorable for our team, providing significant value."
  else if value_difference > 0 then
    "This trade provides good value for our team."
  else if value_difference > -5 then
    "This trade is close to fair value, with only minor disadvantages."
  else if value_difference > -10 then
    "This trade is slightly unfavorable but could be acceptable with modifications."
  else
    "This trade provides insufficient value for our team."

/-- `GMAgent.evaluate_trade` (gm_agent.py lines 103-196). When the other
team is missing, the Python code would raise on attribute access; that
branch is totalised with an empty roster and is unreachable in the theorems
below. -/
def evaluateTrade (a : GMAgent) (trade : Trade) : TradeEvaluation :=
  let our_side : Nat := if trade.team1 == a.team_abbr then 1 else 2
  let our_players_ids := if our_side = 1 then trade.team1_players else trade.team2_players
  let their_players_ids := if our_side = 1 then trade.team2_players else trade.team1_players
  let other_team_abbr := if our_side = 1 then trade.team2 else trade.team1
  let our_players := a.team.players.filter (fun p => our_players_ids.contains p.id)
  let other_players :=
    match a.league_state.get_team_by_abbreviation other_team_abbr with
    | some t => t.players
    | none => []
  let their_players := other_players.filter (fun p => their_players_ids.contains p.id)
  let our_value := (our_players.map (evaluatePlayer a.team)).sum
  let their_value_to_us := (their_players.map (evaluatePlayer a.team)).sum
  let our_salary_out := (our_players.map (fun p => p.salary)).sum
  let their_salary_in := (their_players.map (fun p => p.salary)).sum
  let salary_difference := their_salary_in - our_salary_out
  let current_salary := a.team.total_salary
  let new_salary := current_salary - our_salary_out + their_salary_in
  -- the four entries of `cap_status`, read back as propositions by the
  -- adjustment branches below
  let current_over_tax_p := current_salary > a.team.luxury_tax
  let new_over_tax_p := new_salary > a.team.luxury_tax
  let newPositionCount : String → Int := fun pos =>
    ((a.team.players.filter
        (fun p => !(our_players_ids.contains p.id) && p.position == pos)).length : Int)
    + ((their_players.filter (fun p => p.position == pos)).length : Int)
  let positionBalance : String → Int := fun pos => newPositionCount pos - 2
  let vd0 := their_value_to_us - our_value
  let vd1 :=
    if ¬ current_over_tax_p ∧ new_over_tax_p then vd0 - 10
    else if current_over_tax_p ∧ new_over_tax_p then
      (if salary_difference > 0 then vd0 - salary_difference / 10000000
       else vd0 + |salary_difference| / 10000000)
    else vd0
  let positionAdjustment : String → ℚ := fun pos =>
    if positionBalance pos < 0 then -((|positionBalance pos| : ℚ) * 5)
    else if positionBalance pos > 1 then -(((positionBalance pos : ℚ) - 1) * 3)
    else 0
  let value_difference := vd1 + (posList.map positionAdjustment).sum
  { our_value := our_value
    their_value := their_value_to_us
    value_difference := value_difference
    salary_difference := salary_difference
    current_over_cap := decide (current_salary > a.team.salary_cap)
    new_over_cap := decide (new_salary > a.team.salary_cap)
    current_over_tax := decide current_over_tax_p
    new_over_tax := decide new_over_tax_p
    position_balance := posList.map (fun pos => (pos, positionBalance pos))
    acceptable := decide (value_difference > -5)
    counter_needed := decide (-10 < value_difference ∧ value_difference < -5)
    reasoning := getTradeReasoning value_difference }

/-! ### Negotiation engine (`gm_agent.py`) -/

/-- Stable insertion of `x` into `l`: `x` is placed before the first element
`y` with `le x y`. -/
def stableInsert {α : Type} (le : α → α → Bool) (x : α) : List α → List α
  | [] => [x]
  | y :: ys => if le x y then x :: y :: ys else y :: stableInsert le x ys

/-- Stable sort with respect to the boolean comparison `le`; models Python
`sorted`, which is stable. Descending key sorts (`reverse=True`, also
stable) are obtained by flipping the key comparison. -/
def stableSort {α : Type} (le : α → α → Bool) : List α → List α
  | [] => []
  | x :: xs => stableInsert le x (stableSort le xs)

/-- Which side of a trade the agent is on: 1 when it is `team1`, else 2
(the `our_side` computation of `create_counter_offer` line 217 and of
`evaluate_trade`). -/
def counterOfferSide (a : GMAgent) (original_trade : Trade) : Nat :=
  if original_trade.team1 == a.team_abbr then 1 else 2

/-- The modified trade built by `GMAgent.create_counter_offer`
(gm_agent.py lines 216-288), before the final identity check. The
`random.random()` draw of line 256 is the explicit argument `roll` (drawn
only when our id list is nonempty, which the short-circuit makes
equivalent); the generated id and timestamp of the counter trade are the
explicit arguments `freshId` and `now`. A missing other team would raise in
Python; that branch is totalised with an empty roster and is unreachable in
the theorems below. -/
def counterOfferModified (a : GMAgent) (original_trade : Trade) (roll : ℚ)
    (freshId : String) (now : Timestamp) : Trade :=
  let our_side : Nat := counterOfferSide a original_trade
  let other_team_abbr := if our_side = 1 then original_trade.team2 else original_trade.team1
  let other_players :=
    match a.league_state.get_team_by_abbreviation other_team_abbr with
    | some t => t.players
    | none => []
  let counter0 : Trade :=
    { id := freshId
      team1 := original_trade.team1
      team2 := original_trade.team2
      team1_players := original_trade.team1_players
      team2_players := original_trade.team2_players
      team1_picks := original_trade.team1_picks
      team2_picks := original_trade.team2_picks
      status := "proposed"
      proposed_by := a.team_abbr
      timestamp := now
      counter_trade_id := some original_trade.id }
  let our_players_ids := if our_side = 1 then counter0.team1_players else counter0.team2_players
  let their_players_ids := if our_side = 1 then counter0.team2_players else counter0.team1_players
  let their_players := other_players.filter (fun p => their_players_ids.contains p.id)
  let _their_value := (their_players.map (evaluatePlayer a.team)).sum
  -- lines 246-249: computed and sorted, but never used afterwards
  let _our_available_players :=
    stableSort (fun p q => decide (evaluatePlayer a.team p ≤ evaluatePlayer a.team q))
      (a.team.players.filter (fun p => !(our_players_ids.contains p.id)))
  let our_players := a.team.players.filter (fun p => our_players_ids.contains p.id)
  let _our_value := (our_players.map (evaluatePlayer a.team)).sum
  if our_players_ids.length > 0 ∧ roll < 7/10 then
    -- remove our highest-valued player in the trade, if any
    match stableSort (fun p q => decide (evaluatePlayer a.team q ≤ evaluatePlayer a.team p))
            our_players with
    | [] => counter0
    | player_to_remove :: _ =>
      if our_side = 1 then
        { counter0 with team1_players := counter0.team1_players.erase player_to_remove.id }
      else
        { counter0 with team2_players := counter0.team2_players.erase player_to_remove.id }
  else
    -- add one of their players of middle-to-lower value
    match stableSort (fun p q => decide (evaluatePlayer a.team q ≤ evaluatePlayer a.team p))
            (other_players.filter (fun p => !(their_players_ids.contains p.id))) with
    | [] => counter0
    | top :: rest =>
      let sorted_players := top :: rest
      let index := min (sorted_players.length - 1) (sorted_players.length / 3)
      let player_to_add := sorted_players.getD index top
      if our_side = 1 then
        { counter0 with team2_players := counter0.team2_players ++ [player_to_add.id] }
      else
        { counter0 with team1_players := counter0.team1_players ++ [player_to_add.id] }

/-- `GMAgent.create_counter_offer` (gm_agent.py lines 214-296): the
modified trade of `counterOfferModified`, unless its player lists are
identical to the original's (lines 289-294), in which case no counter is
returned. -/
def createCounterOffer (a : GMAgent) (original_trade : Trade) (roll : ℚ)
    (freshId : String) (now : Timestamp) : Option Trade :=
  let our_side := counterOfferSide a original_trade
  let counter := counterOfferModified a original_trade roll freshId now
  if (our_side = 1 ∧ counter.team1_players = original_trade.team1_players ∧
        counter.team2_players = original_trade.team2_players) ∨
     (our_side = 2 ∧ counter.team1_players = original_trade.team1_players ∧
        counter.team2_players = original_trade.team2_players) then
    none
  else
    some counter

/-- The outcome of the judge call inside `evaluate_trade_with_claude`:
either a parsed decision, a text response with no parsable JSON (with the
`random.random()` draw of the fallback as payload), or an exception raised
by the call. -/
inductive JudgeOutcome where
  | parsed (decision : String)
  | unparsable (roll : ℚ)
  | failed
deriving DecidableEq, Repr

/-- The decision field of the dictionary returned by
`GMAgent.evaluate_trade_with_claude` (gm_agent.py lines 598-628) as a
function of the judge outcome: a parsed decision is returned as is; a parse
failure returns `"reject"` with probability 0.7 and `"counter"` otherwise
(lines 610-616); an exception falls back to the deterministic
`evaluate_trade` (lines 618-628). -/
def claudeDecision (a : GMAgent) (trade : Trade) (outcome : JudgeOutcome) : String :=
  match outcome with
  | .parsed decision => decision
  | .unparsable roll => if roll < 7/10 then "reject" else "counter"
  | .failed => if (evaluateTrade a trade).acceptable then "accept" else "reject"

/-! ### League cycle orchestrator (`gm_agent.py`, `GMAgentManager`) -/

/-- The league-state effect of
`GMAgentManager.process_agent_trade_proposal` (gm_agent.py lines 755-780):
the proposal's trade is appended to the ledger, the target agent's
(external, judge-driven) `respond_to_trade` result is the explicit
`response` argument, an accepted trade is executed, and a countered
response with a counter trade appends the counter.
`process_user_trade_proposal` (lines 721-753) handles its ledger the same
way once the target team is valid. -/
def processAgentTradeProposal (s : LeagueState) (proposal : TradeProposal)
    (response : TradeResponse) : LeagueState :=
  let trade := proposal.trade
  let s1 : LeagueState := { s with trades := s.trades ++ [trade] }
  if response.status == "accepted" then
    (executeTrade s1 trade).1
  else if response.status == "countered" then
    match response.counter_trade with
    | some counter => { s1 with trades := s1.trades ++ [counter] }
    | none => s1
  else
    s1

/-! ### Trade id generation (`models.py` line 52) -/

/-- Two-digit zero-padded decimal rendering, as `strftime` produces for
`%m`, `%d`, `%H`, `%M`, `%S` (all their values are below 100). -/
def pad2 (n : Nat) : List Char := [Nat.digitChar (n / 10), Nat.digitChar (n % 10)]

/-- Four-digit zero-padded decimal rendering, as `strftime` produces for
`%Y` on calendar years (datetime years are at most 9999). -/
def pad4 (n : Nat) : List Char :=
  [Nat.digitChar (n / 1000), Nat.digitChar (n / 100 % 10),
   Nat.digitChar (n / 10 % 10), Nat.digitChar (n % 10)]

/-- `datetime.now().strftime("%Y%m%d%H%M%S")`: the second-resolution
calendar fields, concatenated zero-padded; sub-second fields do not
appear. -/
def strftimeCompact (t : Timestamp) : List Char :=
  pad4 t.year ++ pad2 t.month ++ pad2 t.day ++ pad2 t.hour ++ pad2 t.minute ++ pad2 t.second

/-- The default id factory of `Trade.id`:
`f"trade_{datetime.now().strftime('%Y%m%d%H%M%S')}"`. -/
def defaultTradeId (now : Timestamp) : String :=
  "trade_" ++ String.mk (strftimeCompact now)

/-- A `Trade` built with the default factories for `id`, `status` and
`timestamp` at clock instant `now`. -/
def mkDefaultTrade (now : Timestamp) (team1 team2 proposed_by : String)
    (team1_players team2_players : List String) : Trade :=
  { id := defaultTradeId now
    team1 := team1
    team2 := team2
    team1_players := team1_players
    team2_players := team2_players
    status := "proposed"
    proposed_by := proposed_by
    timestamp := now }

/-- Does the team's roster contain a player with the given id? -/
def rosterHas (t : Team) (pid : String) : Bool :=
  t.players.any (fun p => p.id == pid)

/-- Number of teams of the list whose roster contains the given player id. -/
def teamsWith (teams : List Team) (pid : String) : Nat :=
  teams.countP (fun t => rosterHas t pid)

/-- The age factor as the amended specification states it: flat `1.0` in
the prime years 24-29; the young ramp `0.8` plus `0.05` per year above 19
for ages up to 22; and the declining-value formula `1.0` minus `0.05` per
year above 30 for every other age — so age 23 yields `1.35` and age 30
yields `1.0`, with no lower floor. -/
def ageFactorSpecAmended (age : Int) : ℚ :=
  if 24 ≤ age ∧ age ≤ 29 then 1
  else if age ≤ 22 then (16 + ((age : ℚ) - 19)) / 20
  else (20 - ((age : ℚ) - 30)) / 20

/-! ### Concrete fixtures used by witnesses and counterexamples -/

/-- A sample player: prime age 25, one-year contract, a single `ppg` stat. -/
def mkSamplePlayer (pid pos : String) (ppg salary : ℚ) : Player :=
  { id := pid
    name := pid
    position := pos
    age := 25
    height := "6-5"
    weight := 200
    salary := salary
    contract_years := 1
    stats := [("ppg", ppg)] }

/-- A balanced ten-man team `AAA`: two players per position, including the
tradeable point guard `ax1` (ppg 20, salary 2M, value 20). -/
def teamAAA : Team :=
  { id := "1"
    name := "Aardvarks"
    abbreviation := "AAA"
    city := "Alphaville"
    conference := "East"
    division := "Atlantic"
    players :=
      [mkSamplePlayer "ax1" "PG" 20 2000000,
       mkSamplePlayer "ax2" "PG" 10 1000000,
       mkSamplePlayer "ax3" "SG" 10 1000000,
       mkSamplePlayer "ax4" "SG" 10 1000000,
       mkSamplePlayer "ax5" "SF" 10 1000000,
       mkSamplePlayer "ax6" "SF" 10 1000000,
       mkSamplePlayer "ax7" "PF" 10 1000000,
       mkSamplePlayer "ax8" "PF" 10 1000000,
       mkSamplePlayer "ax9" "C" 10 1000000,
       mkSamplePlayer "ax10" "C" 10 1000000]
    draft_picks := [] }

/-- A one-man team `BBB` holding the point guard `by1` (ppg 15, salary
1.5M, value 15 in `teamAAA`'s needs context). -/
def teamBBB : Team :=
  { id := "2"
    name := "Bears"
    abbreviation := "BBB"
    city := "Betaville"
    conference := "West"
    division := "Pacific"
    players := [mkSamplePlayer "by1" "PG" 15 1500000]
    draft_picks := [] }

/-- A league of `teamAAA` and `teamBBB` with an empty ledger. -/
def leagueAB : LeagueState := { teams := [teamAAA, teamBBB], trades := [] }

/-- The `AAA` GM agent over `leagueAB`. -/
def agentAAA : GMAgent := { team_abbr := "AAA", league_state := leagueAB, team := teamAAA }

/-- A fixed clock instant. -/
def ts0 : Timestamp := ⟨2026, 1, 1, 0, 0, 0, 0⟩

/-- `ax1` (value 20) for `by1` (value 15): value difference exactly `-5`. -/
def tradeC4 : Trade :=
  { id := "t4"
    team1 := "AAA"
    team2 := "BBB"
    team1_players := ["ax1"]
    team2_players := ["by1"]
    proposed_by := "AAA"
    timestamp := ts0 }

/-- The empty trade between `AAA` and `BBB`: value difference 0, hence
acceptable under `evaluate_trade`. -/
def tradeC7 : Trade :=
  { id := "t7"
    team1 := "AAA"
    team2 := "BBB"
    proposed_by := "BBB"
    timestamp := ts0 }

/-- A needs context with five rostered point guards, making
`position_need_factor "PG" = 2 - 5/2 < 0`. -/
def teamPG5 : Team :=
  { id := "3"
    name := "Guards"
    abbreviation := "GGG"
    city := "Gammaville"
    conference := "East"
    division := "Central"
    players :=
      [mkSamplePlayer "g1" "PG" 10 1000000,
       mkSamplePlayer "g2" "PG" 10 1000000,
       mkSamplePlayer "g3" "PG" 10 1000000,
       mkSamplePlayer "g4" "PG" 10 1000000,
       mkSamplePlayer "g5" "PG" 10 1000000]
    draft_picks := [] }

/-- A point guard with ppg 20 on a 1M salary. -/
def playerLow : Player := mkSamplePlayer "p" "PG" 20 1000000

/-- `playerLow` with its ppg raised to 30 — all other fields equal. -/
def playerHigh : Player := mkSamplePlayer "p" "PG" 30 1000000

/-- Single-player teams for the trade-execution witnesses: `TA` rosters
`a1`. -/
def teamTA : Team :=
  { id := "4"
    name := "Tas"
    abbreviation := "TA"
    city := "Tacity"
    conference := "East"
    division := "Atlantic"
    players := [mkSamplePlayer "a1" "PG" 10 1000000]
    draft_picks := [] }

/-- `TB` rosters `b1`. -/
def teamTB : Team :=
  { id := "5"
    name := "Tbs"
    abbreviation := "TB"
    city := "Tbcity"
    conference := "West"
    division := "Pacific"
    players := [mkSamplePlayer "b1" "SG" 10 1000000]
    draft_picks := [] }

/-- A two-team league with disjoint one-man rosters and an empty ledger. -/
def leagueTT : LeagueState := { teams := [teamTA, teamTB], trades := [] }

/-- Send `a1` from `TA` to `TB`. -/
def tradeTT : Trade :=
  { id := "tt1"
    team1 := "TA"
    team2 := "TB"
    team1_players := ["a1"]
    proposed_by := "TA"
    timestamp := ts0 }

/-- A trade listing the id `ghost`, which is on neither roster, alongside
the genuine `a1`. -/
def tradeGhost : Trade :=
  { id := "tg1"
    team1 := "TA"
    team2 := "TB"
    team1_players := ["ghost", "a1"]
    proposed_by := "TA"
    timestamp := ts0 }

/-- A trade naming the unknown abbreviation `ZZZ`. -/
def tradeMissingTeam : Trade :=
  { id := "tz1"
    team1 := "ZZZ"
    team2 := "TB"
    team1_players := ["a1"]
    proposed_by := "ZZZ"
    timestamp := ts0 }

/-- Original trade for the countered-proposal counterexample. -/
def tradeC6 : Trade :=
  { id := "t6"
    team1 := "TA"
    team2 := "TB"
    team1_players := ["a1"]
    proposed_by := "user"
    timestamp := ts0 }

/-- The counter trade the responding agent attaches. -/
def counterC6 : Trade :=
  { id := "t6c"
    team1 := "TA"
    team2 := "TB"
    team2_players := ["b1"]
    proposed_by := "TB"
    timestamp := ts0
    counter_trade_id := some "t6" }

/-- A countered response carrying `counterC6`. -/
def responseC6 : TradeResponse :=
  { trade_id := "t6"
    status := "countered"
    message := "counter offer"
    counter_trade := some counterC6 }

/-- Original trade for the counter-offer fixed-point counterexample: `TA`
sends `a1`, receives nothing. -/
def tradeC8 : Trade :=
  { id := "t8"
    team1 := "TA"
    team2 := "TB"
    team1_players := ["a1"]
    proposed_by := "TB"
    timestamp := ts0 }

/-- The `TA` GM agent over `leagueTT`. -/
def agentTA : GMAgent := { team_abbr := "TA", league_state := leagueTT, team := teamTA }

/-- An instant near the end of a second. -/
def tsSameSecondA : Timestamp := ⟨2026, 10, 12, 9, 30, 15, 1⟩

/-- A later instant within the same second as `tsSameSecondA`. -/
def tsSameSecondB : Timestamp := ⟨2026, 10, 12, 9, 30, 15, 999999⟩

/-- The second after `tsSameSecondA`. -/
def tsNextSecond : Timestamp := ⟨2026, 10, 12, 9, 30, 16, 0⟩

/-- The counter offer produced from `tradeC8` by removing `a1`. -/
def expectedC8one : Trade :=
  { id := "c8a"
    team1 := "TA"
    team2 := "TB"
    team1_players := []
    team2_players := []
    status := "proposed"
    proposed_by := "TA"
    timestamp := ts0
    counter_trade_id := some "t8" }

/-- The counter offer produced from `expectedC8one` by asking for `b1`. -/
def expectedC8two : Trade :=
  { id := "c8b"
    team1 := "TA"
    team2 := "TB"
    team1_players := []
    team2_players := ["b1"]
    status := "proposed"
    proposed_by := "TA"
    timestamp := ts0
    counter_trade_id := some "c8a" }

/-! ## Theorems -/

/-- C9: `execute_trade` with an unresolvable team abbreviation returns
failure and leaves the league state — rosters, trade statuses and ledger —
completely unchanged. -/
theorem executeTrade_missing_team_noop (s : LeagueState) (tr : Trade)
    (h : s.get_team_by_abbreviation tr.team1 = none ∨
         s.get_team_by_abbreviation tr.team2 = none) :
    executeTrade s tr = (s, false) := by
  unfold executeTrade
  rcases h with h | h
  · rw [h]
  · rw [h]
    cases s.get_team_by_abbreviation tr.team1 <;> rfl

/-- C9 witness: `tradeMissingTeam` names the unknown abbreviation `ZZZ`,
and `execute_trade` on `leagueTT` fails without touching the state. -/
theorem executeTrade_missing_team_noop_witness :
    leagueTT.get_team_by_abbreviation tradeMissingTeam.team1 = none ∧
    executeTrade leagueTT tradeMissingTeam = (leagueTT, false) :=
  ⟨by decide, executeTrade_missing_team_noop leagueTT tradeMissingTeam (Or.inl (by decide))⟩

/-- C2 counterexample: `tradeGhost` lists the id `ghost`, which is on
neither roster, yet `execute_trade` succeeds (returns `true`) and does
mutate the state (it moves `a1`), contradicting the claim that such a trade
fails and leaves both rosters unchanged. -/
theorem executeTrade_ghost_id_cex :
    (leagueTT.get_team_by_abbreviation tradeGhost.team1).isSome = true ∧
    (leagueTT.get_team_by_abbreviation tradeGhost.team2).isSome = true ∧
    "ghost" ∈ tradeGhost.team1_players ∧
    rosterHas teamTA "ghost" = false ∧
    rosterHas teamTB "ghost" = false ∧
    (executeTrade leagueTT tradeGhost).2 = true ∧
    (executeTrade leagueTT tradeGhost).1 ≠ leagueTT := by
  decide

/-- C2 amended: `execute_trade` performs no roster-membership validation —
whenever both team abbreviations resolve it returns success, regardless of
whether the listed player ids are on the named rosters. -/
theorem executeTrade_no_roster_validation (s : LeagueState) (tr : Trade) (t1 t2 : Team)
    (h1 : s.get_team_by_abbreviation tr.team1 = some t1)
    (h2 : s.get_team_by_abbreviation tr.team2 = some t2) :
    (executeTrade s tr).2 = true := by
  unfold executeTrade
  rw [h1, h2]

/-- C2 witness: both teams of `tradeGhost` resolve in `leagueTT` and the
call returns success despite the unknown id. -/
theorem executeTrade_no_roster_validation_witness :
    leagueTT.get_team_by_abbreviation tradeGhost.team1 = some teamTA ∧
    leagueTT.get_team_by_abbreviation tradeGhost.team2 = some teamTB ∧
    (executeTrade leagueTT tradeGhost).2 = true :=
  ⟨by decide, by decide,
   executeTrade_no_roster_validation leagueTT tradeGhost teamTA teamTB (by decide) (by decide)⟩

/-- C5 counterexample: the age factor at age 23 is `1.35` (the unhandled
boundary falls into the declining-value branch), not the `1.0` the claim
states, and at age 30 it is `1.0`, not `0.95`. -/
theorem ageFactor_boundary_cex :
    ageFactor 23 = 27/20 ∧ ageFactor 30 = 1 ∧
    ageFactor 23 ≠ 1 ∧ ageFactor 30 ≠ 19/20 := by
  refine ⟨?_, ?_, ?_, ?_⟩ <;> norm_num [ageFactor]

/-- C5 amended: the age factor is `0.8 + 0.05·(age−19)` for ages at most
22, `1.0` for ages 24-29, and `1.0 − 0.05·(age−30)` for every other age —
in particular age 23 yields `1.35`, age 30 yields `1.0` — with no lower
floor. -/
theorem ageFactor_eq_spec (age : Int) : ageFactor age = ageFactorSpecAmended age := by
  unfold ageFactor ageFactorSpecAmended
  by_cases h1 : age < 23
  · have h2 : ¬(24 ≤ age ∧ age ≤ 29) := by omega
    have h3 : age ≤ 22 := by omega
    simp only [h1, h2, h3, if_true, if_false]
    ring
  · by_cases h2 : 24 ≤ age ∧ age ≤ 29
    · simp [h1, h2]
    · have h3 : ¬ age ≤ 22 := by omega
      simp only [h1, h2, h3, if_true, if_false]
      ring

/-- C6 counterexample: processing a countered response appends the counter
trade, but the original trade's ledger entry keeps status `"proposed"` — it
is never set to `"countered"` as the claim states. -/
theorem processCountered_status_cex :
    responseC6.status = "countered" ∧
    responseC6.counter_trade = some counterC6 ∧
    (processAgentTradeProposal leagueTT ⟨tradeC6, "m"⟩ responseC6).trades
      = [tradeC6, counterC6] ∧
    ((processAgentTradeProposal leagueTT ⟨tradeC6, "m"⟩ responseC6).trades.map
        (fun t => t.status)) = ["proposed", "proposed"] := by
  decide

/-- C6 amended: on a countered response carrying a counter trade, the
processing appends the original and then the counter to the ledger and
leaves every status — in particular the original's — unchanged. -/
theorem processCountered_ledger (s : LeagueState) (proposal : TradeProposal)
    (response : TradeResponse) (counter : Trade)
    (hst : response.status = "countered")
    (hct : response.counter_trade = some counter) :
    (processAgentTradeProposal s proposal response).trades =
      s.trades ++ [proposal.trade, counter] := by
  simp [processAgentTradeProposal, hst, hct]

/-- C6 witness: the amended ledger equation at the concrete countered
response `responseC6`. -/
theorem processCountered_ledger_witness :
    responseC6.status = "countered" ∧
    (processAgentTradeProposal leagueTT ⟨tradeC6, "m"⟩ responseC6).trades =
      leagueTT.trades ++ [tradeC6, counterC6] :=
  ⟨by decide,
   processCountered_ledger leagueTT ⟨tradeC6, "m"⟩ responseC6 counterC6 (by decide) (by decide)⟩

/-- C10 counterexample: two distinct trades created by the default id
factory within the same second (microseconds 1 and 999999) receive the same
id. -/
theorem defaultTradeId_same_second_cex :
    mkDefaultTrade tsSameSecondA "AAA" "BBB" "user" [] [] ≠
      mkDefaultTrade tsSameSecondB "AAA" "BBB" "user" [] [] ∧
    tsSameSecondA ≠ tsSameSecondB ∧
    (mkDefaultTrade tsSameSecondA "AAA" "BBB" "user" [] []).id =
      (mkDefaultTrade tsSameSecondB "AAA" "BBB" "user" [] []).id := by
  decide

/-- `Nat.digitChar` is injective below 10. -/
theorem digitChar_injOn_lt_ten :
    ∀ a, a < 10 → ∀ b, b < 10 → Nat.digitChar a = Nat.digitChar b → a = b := by
  decide

/-- `pad2` is injective on values below 100. -/
theorem pad2_inj {a b : Nat} (ha : a < 100) (hb : b < 100) (h : pad2 a = pad2 b) : a = b := by
  simp only [pad2, List.cons.injEq, and_true] at h
  have d1 := digitChar_injOn_lt_ten (a / 10) (by omega) (b / 10) (by omega) h.1
  have d2 := digitChar_injOn_lt_ten (a % 10) (by omega) (b % 10) (by omega) h.2
  omega

/-- `pad4` is injective on values below 10000. -/
theorem pad4_inj {a b : Nat} (ha : a < 10000) (hb : b < 10000) (h : pad4 a = pad4 b) :
    a = b := by
  simp only [pad4, List.cons.injEq, and_true] at h
  have d1 := digitChar_injOn_lt_ten (a / 1000) (by omega) (b / 1000) (by omega) h.1
  have d2 := digitChar_injOn_lt_ten (a / 100 % 10) (by omega) (b / 100 % 10) (by omega) h.2.1
  have d3 := digitChar_injOn_lt_ten (a / 10 % 10) (by omega) (b / 10 % 10) (by omega) h.2.2.1
  have d4 := digitChar_injOn_lt_ten (a % 10) (by omega) (b % 10) (by omega) h.2.2.2
  omega

/-- C10 amended: for calendar-valid field ranges, two default-generated
trade ids coincide exactly when the two creation instants agree on all
second-resolution fields; sub-second differences are invisible, so two
trades created within the same second always share an id. -/
theorem defaultTradeId_eq_iff (t1 t2 : Timestamp)
    (h1y : t1.year < 10000) (h1mo : t1.month < 100) (h1d : t1.day < 100)
    (h1h : t1.hour < 100) (h1mi : t1.minute < 100) (h1s : t1.second < 100)
    (h2y : t2.year < 10000) (h2mo : t2.month < 100) (h2d : t2.day < 100)
    (h2h : t2.hour < 100) (h2mi : t2.minute < 100) (h2s : t2.second < 100) :
    defaultTradeId t1 = defaultTradeId t2 ↔
      (t1.year = t2.year ∧ t1.month = t2.month ∧ t1.day = t2.day ∧
       t1.hour = t2.hour ∧ t1.minute = t2.minute ∧ t1.second = t2.second) := by
  constructor
  · intro h
    have hdata : "trade_".data ++ strftimeCompact t1 = "trade_".data ++ strftimeCompact t2 := by
      have hd := congrArg String.data h
      simpa [defaultTradeId, String.data_append] using hd
    have hcat : strftimeCompact t1 = strftimeCompact t2 := by
      exact List.append_cancel_left hdata
    unfold strftimeCompact at hcat
    have s1 := List.append_inj' hcat (by simp [pad2])
    have s2 := List.append_inj' s1.1 (by simp [pad2])
    have s3 := List.append_inj' s2.1 (by simp [pad2])
    have s4 := List.append_inj' s3.1 (by simp [pad2])
    have s5 := List.append_inj' s4.1 (by simp [pad2])
    exact ⟨pad4_inj h1y h2y s5.1, pad2_inj h1mo h2mo s5.2, pad2_inj h1d h2d s4.2,
           pad2_inj h1h h2h s3.2, pad2_inj h1mi h2mi s2.2, pad2_inj h1s h2s s1.2⟩
  · rintro ⟨e1, e2, e3, e4, e5, e6⟩
    simp [defaultTradeId, strftimeCompact, e1, e2, e3, e4, e5, e6]

/-- C10 witness: the amended characterisation instantiated at two concrete
valid instants one second apart. -/
theorem defaultTradeId_eq_iff_witness :
    defaultTradeId tsSameSecondA = defaultTradeId tsNextSecond ↔
      (tsSameSecondA.year = tsNextSecond.year ∧ tsSameSecondA.month = tsNextSecond.month ∧
       tsSameSecondA.day = tsNextSecond.day ∧ tsSameSecondA.hour = tsNextSecond.hour ∧
       tsSameSecondA.minute = tsNextSecond.minute ∧
       tsSameSecondA.second = tsNextSecond.second) :=
  defaultTradeId_eq_iff tsSameSecondA tsNextSecond
    (by decide) (by decide) (by decide) (by decide) (by decide) (by decide)
    (by decide) (by decide) (by decide) (by decide) (by decide) (by decide)


/-- C4 amended: the `acceptable` flag holds exactly when the adjusted value
difference exceeds `-5`, and `counter_needed` holds exactly when the value
difference lies strictly between `-10` and `-5` — both bounds strict, so at
exactly `-5` neither flag holds. -/
theorem evaluateTrade_flag_thresholds (a : GMAgent) (tr : Trade) :
    ((evaluateTrade a tr).acceptable = true ↔
      -5 < (evaluateTrade a tr).value_difference) ∧
    ((evaluateTrade a tr).counter_needed = true ↔
      (-10 < (evaluateTrade a tr).value_difference ∧
       (evaluateTrade a tr).value_difference < -5)) := by
  constructor
  · simp only [evaluateTrade, decide_eq_true_eq, gt_iff_lt]
  · simp only [evaluateTrade, decide_eq_true_eq]

/-- C4 counterexample: at the concrete trade `tradeC4` the adjusted value
difference is exactly `-5`, and there `counter_needed` is false (the code
uses the strict bound `value_difference < -5`), contradicting the claim
that `counter_needed` holds at exactly `-5`. -/
theorem evaluateTrade_boundary_cex :
    (evaluateTrade agentAAA tradeC4).value_difference = -5 ∧
    (evaluateTrade agentAAA tradeC4).acceptable = false ∧
    (evaluateTrade agentAAA tradeC4).counter_needed = false := by
  have hvd : (evaluateTrade agentAAA tradeC4).value_difference = -5 := by
    simp [evaluateTrade, evaluatePlayer, agentAAA, tradeC4, teamAAA, teamBBB,
      leagueAB, mkSamplePlayer, statGet, posList, needsOf, positionNeedFactor,
      ageFactor, contractFactor, Team.total_salary,
      LeagueState.get_team_by_abbreviation, List.find?_cons, List.filter_cons]
    norm_num [min_def, max_def]
  have hflags : (evaluateTrade agentAAA tradeC4).acceptable =
      decide ((evaluateTrade agentAAA tradeC4).value_difference > -5) ∧
      (evaluateTrade agentAAA tradeC4).counter_needed =
      decide (-10 < (evaluateTrade agentAAA tradeC4).value_difference ∧
        (evaluateTrade agentAAA tradeC4).value_difference < -5) := by
    constructor <;> simp only [evaluateTrade]
  refine ⟨hvd, ?_, ?_⟩
  · rw [hflags.1, hvd]
    decide
  · rw [hflags.2, hvd]
    decide

/-- C7 exhibit: for the concrete trade `tradeC7` the deterministic
`evaluate_trade` marks the trade acceptable, yet on unparsable judge output
the code decides by a random draw — `"reject"` for draws below 0.7 and
`"counter"` otherwise, never consulting `evaluate_trade` — while only the
exception path falls back to the deterministic result. -/
theorem claudeDecision_unparsable_ignores_eval :
    (evaluateTrade agentAAA tradeC7).acceptable = true ∧
    claudeDecision agentAAA tradeC7 (.unparsable (3/10)) = "reject" ∧
    claudeDecision agentAAA tradeC7 (.unparsable (9/10)) = "counter" ∧
    claudeDecision agentAAA tradeC7 .failed = "accept" := by
  have hacc : (evaluateTrade agentAAA tradeC7).acceptable = true := by
    simp [evaluateTrade, evaluatePlayer, agentAAA, tradeC7, teamAAA, teamBBB,
      leagueAB, mkSamplePlayer, statGet, posList, needsOf, positionNeedFactor,
      ageFactor, contractFactor, Team.total_salary,
      LeagueState.get_team_by_abbreviation, List.find?_cons, List.filter_cons,
      decide_eq_true_eq]
    norm_num [min_def, max_def]
  refine ⟨hacc, by norm_num [claudeDecision], by norm_num [claudeDecision], ?_⟩
  simp [claudeDecision, hacc]

/-- Multiplying by the clamped efficiency preserves order: for a positive
efficiency slope `k`, the map `b ↦ b * clamp (b*k) [1/2, 3/2]` is monotone
(for negative `b` the clamp is constantly `1/2`). -/
theorem clampMul_le_clampMul (k : ℚ) (hk : 0 < k) {b c : ℚ} (hbc : b ≤ c) :
    b * min (max (b * k) (1/2)) (3/2) ≤ c * min (max (c * k) (1/2)) (3/2) := by
  have hlb_b : (1/2 : ℚ) ≤ min (max (b * k) (1/2)) (3/2) :=
    le_min (le_max_right _ _) (by norm_num)
  have hlb_c : (1/2 : ℚ) ≤ min (max (c * k) (1/2)) (3/2) :=
    le_min (le_max_right _ _) (by norm_num)
  have hmono : min (max (b * k) (1/2)) (3/2) ≤ min (max (c * k) (1/2)) (3/2) :=
    min_le_min (max_le_max (mul_le_mul_of_nonneg_right hbc (le_of_lt hk)) le_rfl) le_rfl
  rcases le_or_lt 0 b with hb | hb
  · have hc : (0 : ℚ) ≤ c := le_trans hb hbc
    calc b * min (max (b * k) (1/2)) (3/2)
        ≤ c * min (max (b * k) (1/2)) (3/2) :=
          mul_le_mul_of_nonneg_right hbc (by linarith)
      _ ≤ c * min (max (c * k) (1/2)) (3/2) := mul_le_mul_of_nonneg_left hmono hc
  · have hmb : min (max (b * k) (1/2)) (3/2) = 1/2 := by
      have hbk : b * k < 0 := mul_neg_of_neg_of_pos hb hk
      rw [max_eq_right (by linarith), min_eq_left (by norm_num)]
    rcases le_or_lt 0 c with hc | hc
    · rw [hmb]
      nlinarith [hlb_c]
    · have hmc : min (max (c * k) (1/2)) (3/2) = 1/2 := by
        have hck : c * k < 0 := mul_neg_of_neg_of_pos hc hk
        rw [max_eq_right (by linarith), min_eq_left (by norm_num)]
      rw [hmb, hmc]
      linarith

/-- C3 amended: `evaluate_player` is monotone non-decreasing in each of
ppg, rpg and apg (all other fields fixed) provided the product of the
position-need, age and contract factors is nonnegative; a negative product
(e.g. five rostered players at the position) reverses the direction. -/
theorem evaluatePlayer_mono (ctx : Team) (p q : Player)
    (hpos : q.position = p.position) (hage : q.age = p.age)
    (hcy : q.contract_years = p.contract_years) (hsal : q.salary = p.salary)
    (hppg : statGet p.stats "ppg" <= statGet q.stats "ppg")
    (hrpg : statGet p.stats "rpg" <= statGet q.stats "rpg")
    (hapg : statGet p.stats "apg" <= statGet q.stats "apg")
    (hfac : 0 <= positionNeedFactor ctx p.position * ageFactor p.age *
        contractFactor p.contract_years) :
    evaluatePlayer ctx p <= evaluatePlayer ctx q := by
  simp only [evaluatePlayer]
  rw [hpos, hage, hcy, hsal]
  set S := p.salary / 1000000 with hS
  set PNF := positionNeedFactor ctx p.position with hPNF
  set AF := ageFactor p.age with hAF
  set CF := contractFactor p.contract_years with hCF
  set bp := statGet p.stats "ppg" * 1 + statGet p.stats "rpg" * (7/10) +
      statGet p.stats "apg" * (7/10) with hbp
  set bq := statGet q.stats "ppg" * 1 + statGet q.stats "rpg" * (7/10) +
      statGet q.stats "apg" * (7/10) with hbq
  have hb : bp <= bq := by
    rw [hbp, hbq]
    linarith
  by_cases hs : S > 0
  · rw [if_pos hs, if_pos hs]
    have h10 : (0 : ℚ) < S * 10 := mul_pos hs (by norm_num)
    have hk : (0 : ℚ) < (S * 10)⁻¹ := inv_pos.mpr h10
    have hdiv : ∀ b : ℚ, b / S / 10 = b * (S * 10)⁻¹ := by
      intro b
      rw [div_div, div_eq_mul_inv]
    rw [hdiv bp, hdiv bq]
    have key := clampMul_le_clampMul _ hk hb
    calc bp * PNF * AF * CF * min (max (bp * (S * 10)⁻¹) (1/2)) (3/2)
        = PNF * AF * CF * (bp * min (max (bp * (S * 10)⁻¹) (1/2)) (3/2)) := by ring
      _ <= PNF * AF * CF * (bq * min (max (bq * (S * 10)⁻¹) (1/2)) (3/2)) :=
          mul_le_mul_of_nonneg_left key hfac
      _ = bq * PNF * AF * CF * min (max (bq * (S * 10)⁻¹) (1/2)) (3/2) := by ring
  · rw [if_neg hs, if_neg hs]
    have hdiv : ∀ b : ℚ, b / 10 = b * ((10 : ℚ))⁻¹ := by
      intro b
      rw [div_eq_mul_inv]
    rw [hdiv bp, hdiv bq]
    have key := clampMul_le_clampMul ((10 : ℚ))⁻¹ (by norm_num) hb
    calc bp * PNF * AF * CF * min (max (bp * ((10 : ℚ))⁻¹) (1/2)) (3/2)
        = PNF * AF * CF * (bp * min (max (bp * ((10 : ℚ))⁻¹) (1/2)) (3/2)) := by ring
      _ <= PNF * AF * CF * (bq * min (max (bq * ((10 : ℚ))⁻¹) (1/2)) (3/2)) :=
          mul_le_mul_of_nonneg_left key hfac
      _ = bq * PNF * AF * CF * min (max (bq * ((10 : ℚ))⁻¹) (1/2)) (3/2) := by ring

/-- C3 counterexample: in the five-point-guard context `teamPG5` the
position-need factor is negative, and raising ppg alone (20 to 30, all
other fields equal) strictly lowers the `evaluate_player` value. -/
theorem evaluatePlayer_not_monotone_cex :
    playerHigh.position = playerLow.position ∧ playerHigh.age = playerLow.age ∧
    playerHigh.contract_years = playerLow.contract_years ∧
    playerHigh.salary = playerLow.salary ∧
    statGet playerHigh.stats "rpg" = statGet playerLow.stats "rpg" ∧
    statGet playerHigh.stats "apg" = statGet playerLow.stats "apg" ∧
    statGet playerLow.stats "ppg" < statGet playerHigh.stats "ppg" ∧
    evaluatePlayer teamPG5 playerHigh < evaluatePlayer teamPG5 playerLow := by
  refine ⟨rfl, rfl, rfl, rfl, by decide, by decide, by decide, ?_⟩
  simp [evaluatePlayer, statGet, playerLow, playerHigh, mkSamplePlayer, teamPG5,
    positionNeedFactor, needsOf, posList, ageFactor, contractFactor,
    List.find?_cons, List.filter_cons]
  norm_num [min_def, max_def]

/-- C3 witness: in the balanced context `teamAAA` the factor product is
nonnegative, and the monotonicity theorem applies to the ppg raise from
`playerLow` to `playerHigh`. -/
theorem evaluatePlayer_mono_witness :
    0 <= positionNeedFactor teamAAA playerLow.position * ageFactor playerLow.age *
        contractFactor playerLow.contract_years ∧
    evaluatePlayer teamAAA playerLow <= evaluatePlayer teamAAA playerHigh := by
  have hfac : 0 <= positionNeedFactor teamAAA playerLow.position *
      ageFactor playerLow.age * contractFactor playerLow.contract_years := by
    simp [positionNeedFactor, needsOf, posList, teamAAA, mkSamplePlayer, ageFactor,
      contractFactor, playerLow, List.filter_cons]
  exact ⟨hfac, evaluatePlayer_mono teamAAA playerLow playerHigh rfl rfl rfl rfl
    (by decide) (by decide) (by decide) hfac⟩

/-- C8 amended, first half: a returned counter offer always differs from
the original trade in at least one of the two player lists. -/
theorem createCounterOffer_some_differs (a : GMAgent) (orig : Trade) (roll : ℚ)
    (freshId : String) (now : Timestamp) (c : Trade)
    (h : createCounterOffer a orig roll freshId now = some c) :
    ¬(c.team1_players = orig.team1_players ∧ c.team2_players = orig.team2_players) := by
  intro hc
  have hside : counterOfferSide a orig = 1 ∨ counterOfferSide a orig = 2 := by
    unfold counterOfferSide
    by_cases ht : orig.team1 == a.team_abbr <;> simp [ht]
  simp only [createCounterOffer] at h
  split at h
  · exact Option.noConfusion h
  case isFalse hcond =>
    have hce := Option.some.inj h
    rcases hside with h1 | h2
    · exact hcond (Or.inl ⟨h1, hce ▸ hc.1, hce ▸ hc.2⟩)
    · exact hcond (Or.inr ⟨h2, hce ▸ hc.1, hce ▸ hc.2⟩)

/-- C8 counterexample: a second application of `create_counter_offer` to
its own output need not return none — starting from `tradeC8`, the first
call (roll below 0.7) removes `a1` and yields `expectedC8one`; the second
call on that output, with no roster or player-set change in between, adds
`b1` and yields `expectedC8two` rather than none. -/
theorem createCounterOffer_twice_cex :
    createCounterOffer agentTA tradeC8 (1/2) "c8a" ts0 = some expectedC8one ∧
    createCounterOffer agentTA expectedC8one (1/2) "c8b" ts0 = some expectedC8two := by
  constructor
  · simp [createCounterOffer, counterOfferModified, counterOfferSide, agentTA,
      tradeC8, teamTA, teamTB, leagueTT, mkSamplePlayer, expectedC8one,
      LeagueState.get_team_by_abbreviation, stableSort, stableInsert,
      List.find?_cons, List.filter_cons]
    norm_num
  · simp [createCounterOffer, counterOfferModified, counterOfferSide, agentTA,
      expectedC8one, expectedC8two, teamTA, teamTB, leagueTT, mkSamplePlayer,
      LeagueState.get_team_by_abbreviation, stableSort, stableInsert,
      List.find?_cons, List.filter_cons]

/-- C8 witness: the first counter offer of the counterexample indeed
differs from `tradeC8` in its player lists, via the amended theorem. -/
theorem createCounterOffer_some_differs_witness :
    createCounterOffer agentTA tradeC8 (1/2) "c8a" ts0 = some expectedC8one ∧
    ¬(expectedC8one.team1_players = tradeC8.team1_players ∧
      expectedC8one.team2_players = tradeC8.team2_players) := by
  have hsome : createCounterOffer agentTA tradeC8 (1/2) "c8a" ts0 = some expectedC8one := by
    simp [createCounterOffer, counterOfferModified, counterOfferSide, agentTA,
      tradeC8, teamTA, teamTB, leagueTT, mkSamplePlayer, expectedC8one,
      LeagueState.get_team_by_abbreviation, stableSort, stableInsert,
      List.find?_cons, List.filter_cons]
    norm_num
  exact ⟨hsome,
    createCounterOffer_some_differs agentTA tradeC8 (1/2) "c8a" ts0 expectedC8one hsome⟩

/-- `updateTeamByAbbr` is the identity when no team matches. -/
theorem updateTeamByAbbr_of_find_none (l : List Team) (a : String) (f : Team → Team)
    (h : l.find? (fun t => t.abbreviation == a) = none) :
    updateTeamByAbbr l a f = l := by
  induction l with
  | nil => rfl
  | cons t ts ih =>
    simp only [List.find?_cons] at h
    cases hta : (t.abbreviation == a) with
    | true => rw [hta] at h; exact Option.noConfusion h
    | false =>
      rw [hta] at h
      simp [updateTeamByAbbr, hta, ih h]

/-- After updating the first team with abbreviation `a` by an
abbreviation-preserving `f`, the first team with abbreviation `a` is the
image under `f` of the one found before. -/
theorem find_updateTeamByAbbr_self (l : List Team) (a : String) (f : Team → Team) (t : Team)
    (hf : ∀ u, (f u).abbreviation = u.abbreviation)
    (h : l.find? (fun u => u.abbreviation == a) = some t) :
    (updateTeamByAbbr l a f).find? (fun u => u.abbreviation == a) = some (f t) := by
  induction l with
  | nil => exact Option.noConfusion h
  | cons u us ih =>
    simp only [List.find?_cons] at h
    cases hua : (u.abbreviation == a) with
    | true =>
      rw [hua] at h
      have ht : u = t := Option.some.inj h
      subst ht
      have hfa : ((f u).abbreviation == a) = true := by rw [hf u]; exact hua
      simp [updateTeamByAbbr, hua, List.find?_cons, hfa]
    | false =>
      rw [hua] at h
      simp [updateTeamByAbbr, hua, List.find?_cons, ih h]

/-- Updating the first team with abbreviation `a` by an
abbreviation-preserving `f` does not change which team is found under a
different abbreviation `b`. -/
theorem find_updateTeamByAbbr_ne (l : List Team) (a b : String) (f : Team → Team)
    (hf : ∀ u, (f u).abbreviation = u.abbreviation) (hab : a ≠ b) :
    (updateTeamByAbbr l a f).find? (fun u => u.abbreviation == b) =
      l.find? (fun u => u.abbreviation == b) := by
  induction l with
  | nil => rfl
  | cons u us ih =>
    cases hua : (u.abbreviation == a) with
    | true =>
      have hub : (u.abbreviation == b) = false := by
        have hu : u.abbreviation = a := eq_of_beq hua
        rw [hu]
        exact beq_eq_false_iff_ne.mpr hab
      have hfb : ((f u).abbreviation == b) = false := by rw [hf u]; exact hub
      simp [updateTeamByAbbr, hua, List.find?_cons, hub, hfb]
    | false =>
      cases hub : (u.abbreviation == b) with
      | true => simp [updateTeamByAbbr, hua, List.find?_cons, hub]
      | false => simp [updateTeamByAbbr, hua, List.find?_cons, hub, ih]

/-- Counting teams before and after an update of the first team with
abbreviation `a`: the update replaces exactly the found team `t` by `f t`. -/
theorem countP_updateTeamByAbbr (l : List Team) (a : String) (f : Team → Team) (t : Team)
    (p : Team → Bool)
    (h : l.find? (fun u => u.abbreviation == a) = some t) :
    (updateTeamByAbbr l a f).countP p + (if p t then 1 else 0) =
      l.countP p + (if p (f t) then 1 else 0) := by
  induction l with
  | nil => exact Option.noConfusion h
  | cons u us ih =>
    simp only [List.find?_cons] at h
    cases hua : (u.abbreviation == a) with
    | true =>
      rw [hua] at h
      have ht : u = t := Option.some.inj h
      subst ht
      simp only [updateTeamByAbbr, hua, if_true, List.countP_cons]
      omega
    | false =>
      rw [hua] at h
      have := ih h
      simp only [updateTeamByAbbr, hua, Bool.false_eq_true, if_false, List.countP_cons]
      omega

/-- A list containing two distinct elements satisfying `p` has `countP`
at least 2. -/
theorem two_le_countP {α : Type} (l : List α) (p : α → Bool) (x y : α)
    (hx : x ∈ l) (hy : y ∈ l) (hne : x ≠ y) (hpx : p x = true) (hpy : p y = true) :
    2 ≤ l.countP p := by
  induction l with
  | nil => cases hx
  | cons u us ih =>
    rw [List.countP_cons]
    rcases List.mem_cons.mp hx with rfl | hx'
    · rcases List.mem_cons.mp hy with rfl | hy'
      · exact absurd rfl hne
      · have hpos : 0 < us.countP p := List.countP_pos_iff.mpr ⟨y, hy', hpy⟩
        simp only [hpx, if_true]
        omega
    · rcases List.mem_cons.mp hy with rfl | hy'
      · have hpos : 0 < us.countP p := List.countP_pos_iff.mpr ⟨x, hx', hpx⟩
        simp only [hpy, if_true]
        omega
      · have := ih hx' hy'
        omega

/-- Membership-by-id in a roster filtered by an id blacklist. -/
theorem any_filter_not_contains (roster : List Player) (ids : List String) (pid : String) :
    ((roster.filter (fun p => !(ids.contains p.id))).any (fun p => p.id == pid)) = true ↔
      ((roster.any (fun p => p.id == pid)) = true ∧ pid ∉ ids) := by
  simp only [List.any_eq_true, List.mem_filter]
  constructor
  · rintro ⟨q, ⟨hq, hqc⟩, hqid⟩
    have hqpid : q.id = pid := by simpa using hqid
    refine ⟨⟨q, hq, hqid⟩, ?_⟩
    rw [← hqpid]
    simpa using hqc
  · rintro ⟨⟨q, hq, hqid⟩, hnotin⟩
    have hqpid : q.id = pid := by simpa using hqid
    refine ⟨q, ⟨hq, ?_⟩, hqid⟩
    rw [hqpid]
    simpa using hnotin

/-- Membership-by-id in a collected list (the ids found on a roster). -/
theorem any_collected (roster : List Player) (ids : List String) (pid : String) :
    ((ids.filterMap (fun x => roster.find? (fun p => p.id == x))).any
        (fun p => p.id == pid)) = true ↔
      (pid ∈ ids ∧ (roster.any (fun p => p.id == pid)) = true) := by
  constructor
  · intro h
    rw [List.any_eq_true] at h
    obtain ⟨q, hq, hqid⟩ := h
    rw [List.mem_filterMap] at hq
    obtain ⟨x, hx, hfind⟩ := hq
    have hqx : q.id = x := by
      have := List.find?_some hfind
      simpa using this
    have hqpid : q.id = pid := by simpa using hqid
    constructor
    · have hxp : x = pid := by rw [← hqx, hqpid]
      rw [← hxp]
      exact hx
    · exact List.any_eq_true.mpr ⟨q, List.mem_of_find?_eq_some hfind, hqid⟩
  · rintro ⟨hpid, hroster⟩
    rw [List.any_eq_true] at hroster
    obtain ⟨q, hq, hqid⟩ := hroster
    have hsome : (roster.find? (fun p => p.id == pid)).isSome :=
      List.find?_isSome.mpr ⟨q, hq, hqid⟩
    obtain ⟨r, hr⟩ := Option.isSome_iff_exists.mp hsome
    have hrid : (r.id == pid) = true := by
      have := List.find?_some hr
      simpa using this
    exact List.any_eq_true.mpr
      ⟨r, List.mem_filterMap.mpr ⟨pid, hpid, hr⟩, hrid⟩

/-- The roster-swap core of `execute_trade`: the four sequential
first-match updates preserve, for every player id, the number of teams
whose roster holds that id, provided the id was on at most one team. -/
theorem countP_roster_swap (l : List Team) (a1 a2 : String) (ids1 ids2 : List String)
    (t1 t2 : Team) (pid : String)
    (h1 : l.find? (fun u => u.abbreviation == a1) = some t1)
    (h2 : l.find? (fun u => u.abbreviation == a2) = some t2)
    (hinv : l.countP (fun t => rosterHas t pid) ≤ 1) :
    (updateTeamByAbbr
      (updateTeamByAbbr
        (updateTeamByAbbr
          (updateTeamByAbbr l a1
            (fun t => { t with players := t.players.filter (fun q => !(ids1.contains q.id)) }))
          a2
          (fun t => { t with players := t.players.filter (fun q => !(ids2.contains q.id)) }))
        a1
        (fun t => { t with players :=
          t.players ++ ids2.filterMap (fun x => t2.players.find? (fun p => p.id == x)) }))
      a2
      (fun t => { t with players :=
        t.players ++ ids1.filterMap (fun x => t1.players.find? (fun p => p.id == x)) })).countP
        (fun t => rosterHas t pid)
      = l.countP (fun t => rosterHas t pid) := by
  by_cases hab : a1 = a2
  · -- both abbreviations resolve to the same dictionary entry (aliasing)
    subst hab
    have ht12 : t1 = t2 := by
      rw [h1] at h2
      exact Option.some.inj h2
    subst ht12
    have hA1 := find_updateTeamByAbbr_self l a1
      (fun t => { t with players := t.players.filter (fun q => !(ids1.contains q.id)) })
      t1 (fun u => rfl) h1
    have hA2 := find_updateTeamByAbbr_self _ a1
      (fun t => { t with players := t.players.filter (fun q => !(ids2.contains q.id)) })
      _ (fun u => rfl) hA1
    have hA3 := find_updateTeamByAbbr_self _ a1
      (fun t => { t with players :=
        t.players ++ ids2.filterMap (fun x => t1.players.find? (fun p => p.id == x)) })
      _ (fun u => rfl) hA2
    have e1 := countP_updateTeamByAbbr l a1
      (fun t => { t with players := t.players.filter (fun q => !(ids1.contains q.id)) })
      t1 (fun t => rosterHas t pid) h1
    have e2 := countP_updateTeamByAbbr _ a1
      (fun t => { t with players := t.players.filter (fun q => !(ids2.contains q.id)) })
      _ (fun t => rosterHas t pid) hA1
    have e3 := countP_updateTeamByAbbr _ a1
      (fun t => { t with players :=
        t.players ++ ids2.filterMap (fun x => t1.players.find? (fun p => p.id == x)) })
      _ (fun t => rosterHas t pid) hA2
    have e4 := countP_updateTeamByAbbr _ a1
      (fun t => { t with players :=
        t.players ++ ids1.filterMap (fun x => t1.players.find? (fun p => p.id == x)) })
      _ (fun t => rosterHas t pid) hA3
    dsimp only at e1 e2 e3 e4
    have hchar :
        rosterHas
          { t1 with players :=
            ((t1.players.filter (fun q => !(ids1.contains q.id))).filter
                (fun q => !(ids2.contains q.id))
              ++ ids2.filterMap (fun x => t1.players.find? (fun p => p.id == x)))
              ++ ids1.filterMap (fun x => t1.players.find? (fun p => p.id == x)) } pid = true ↔
          (((rosterHas t1 pid = true ∧ pid ∉ ids1) ∧ pid ∉ ids2) ∨
            (pid ∈ ids2 ∧ rosterHas t1 pid = true) ∨
            (pid ∈ ids1 ∧ rosterHas t1 pid = true)) := by
      unfold rosterHas
      simp only [List.any_append, Bool.or_eq_true, any_filter_not_contains, any_collected]
      tauto
    have key :
        (if rosterHas
            { t1 with players :=
              ((t1.players.filter (fun q => !(ids1.contains q.id))).filter
                  (fun q => !(ids2.contains q.id))
                ++ ids2.filterMap (fun x => t1.players.find? (fun p => p.id == x)))
                ++ ids1.filterMap (fun x => t1.players.find? (fun p => p.id == x)) } pid
          then 1 else 0) = (if rosterHas t1 pid then 1 else 0) := by
      simp only [hchar]
      by_cases hx : rosterHas t1 pid = true <;>
        by_cases hi1 : pid ∈ ids1 <;>
          by_cases hi2 : pid ∈ ids2 <;>
            simp [hx, hi1, hi2]
    omega
  · -- two distinct dictionary entries
    have hne12 : t1 ≠ t2 := by
      intro he
      have e1 : t1.abbreviation = a1 := by simpa using List.find?_some h1
      have e2 : t2.abbreviation = a2 := by simpa using List.find?_some h2
      exact hab (by rw [← e1, he, e2])
    have hnot : ¬(rosterHas t1 pid = true ∧ rosterHas t2 pid = true) := by
      rintro ⟨hx1, hx2⟩
      have := two_le_countP l (fun t => rosterHas t pid) t1 t2
        (List.mem_of_find?_eq_some h1) (List.mem_of_find?_eq_some h2) hne12 hx1 hx2
      omega
    have hB1 : (updateTeamByAbbr l a1
        (fun t => { t with players := t.players.filter (fun q => !(ids1.contains q.id)) })).find?
          (fun u => u.abbreviation == a2) = some t2 := by
      rw [find_updateTeamByAbbr_ne _ a1 a2
        (fun t => { t with players := t.players.filter (fun q => !(ids1.contains q.id)) })
        (fun u => rfl) hab]
      exact h2
    have hB2 := find_updateTeamByAbbr_self l a1
      (fun t => { t with players := t.players.filter (fun q => !(ids1.contains q.id)) })
      t1 (fun u => rfl) h1
    have hB2' : (updateTeamByAbbr (updateTeamByAbbr l a1
        (fun t => { t with players := t.players.filter (fun q => !(ids1.contains q.id)) })) a2
        (fun t => { t with players := t.players.filter (fun q => !(ids2.contains q.id)) })).find?
          (fun u => u.abbreviation == a1)
        = some { t1 with players := t1.players.filter (fun q => !(ids1.contains q.id)) } := by
      rw [find_updateTeamByAbbr_ne _ a2 a1
        (fun t => { t with players := t.players.filter (fun q => !(ids2.contains q.id)) })
        (fun u => rfl) (Ne.symm hab)]
      exact hB2
    have hB3 := find_updateTeamByAbbr_self _ a2
      (fun t => { t with players := t.players.filter (fun q => !(ids2.contains q.id)) })
      t2 (fun u => rfl) hB1
    have hB3' : (updateTeamByAbbr (updateTeamByAbbr (updateTeamByAbbr l a1
        (fun t => { t with players := t.players.filter (fun q => !(ids1.contains q.id)) })) a2
        (fun t => { t with players := t.players.filter (fun q => !(ids2.contains q.id)) })) a1
        (fun t => { t with players :=
          t.players ++ ids2.filterMap (fun x => t2.players.find? (fun p => p.id == x)) })).find?
          (fun u => u.abbreviation == a2)
        = some { t2 with players := t2.players.filter (fun q => !(ids2.contains q.id)) } := by
      rw [find_updateTeamByAbbr_ne _ a1 a2
        (fun t => { t with players :=
          t.players ++ ids2.filterMap (fun x => t2.players.find? (fun p => p.id == x)) })
        (fun u => rfl) hab]
      exact hB3
    have e1 := countP_updateTeamByAbbr l a1
      (fun t => { t with players := t.players.filter (fun q => !(ids1.contains q.id)) })
      t1 (fun t => rosterHas t pid) h1
    have e2 := countP_updateTeamByAbbr _ a2
      (fun t => { t with players := t.players.filter (fun q => !(ids2.contains q.id)) })
      t2 (fun t => rosterHas t pid) hB1
    have e3 := countP_updateTeamByAbbr _ a1
      (fun t => { t with players :=
        t.players ++ ids2.filterMap (fun x => t2.players.find? (fun p => p.id == x)) })
      _ (fun t => rosterHas t pid) hB2'
    have e4 := countP_updateTeamByAbbr _ a2
      (fun t => { t with players :=
        t.players ++ ids1.filterMap (fun x => t1.players.find? (fun p => p.id == x)) })
      _ (fun t => rosterHas t pid) hB3'
    dsimp only at e1 e2 e3 e4
    have hcharA :
        rosterHas
          { t1 with players :=
            t1.players.filter (fun q => !(ids1.contains q.id))
              ++ ids2.filterMap (fun x => t2.players.find? (fun p => p.id == x)) } pid = true ↔
          ((rosterHas t1 pid = true ∧ pid ∉ ids1) ∨
            (pid ∈ ids2 ∧ rosterHas t2 pid = true)) := by
      unfold rosterHas
      simp only [List.any_append, Bool.or_eq_true, any_filter_not_contains, any_collected]
    have hcharB :
        rosterHas
          { t2 with players :=
            t2.players.filter (fun q => !(ids2.contains q.id))
              ++ ids1.filterMap (fun x => t1.players.find? (fun p => p.id == x)) } pid = true ↔
          ((rosterHas t2 pid = true ∧ pid ∉ ids2) ∨
            (pid ∈ ids1 ∧ rosterHas t1 pid = true)) := by
      unfold rosterHas
      simp only [List.any_append, Bool.or_eq_true, any_filter_not_contains, any_collected]
    have key :
        (if rosterHas
            { t1 with players :=
              t1.players.filter (fun q => !(ids1.contains q.id))
                ++ ids2.filterMap (fun x => t2.players.find? (fun p => p.id == x)) } pid
          then 1 else 0)
        + (if rosterHas
            { t2 with players :=
              t2.players.filter (fun q => !(ids2.contains q.id))
                ++ ids1.filterMap (fun x => t1.players.find? (fun p => p.id == x)) } pid
          then 1 else 0)
        = (if rosterHas t1 pid then 1 else 0) + (if rosterHas t2 pid then 1 else 0) := by
      by_cases hx1 : rosterHas t1 pid = true
      · by_cases hx2 : rosterHas t2 pid = true
        · exact absurd ⟨hx1, hx2⟩ hnot
        · by_cases hi1 : pid ∈ ids1 <;>
            by_cases hi2 : pid ∈ ids2 <;>
              simp only [hcharA, hcharB] <;>
                simp [hx1, hx2, hi1, hi2]
      · by_cases hx2 : rosterHas t2 pid = true <;>
          by_cases hi1 : pid ∈ ids1 <;>
            by_cases hi2 : pid ∈ ids2 <;>
              simp only [hcharA, hcharB] <;>
                simp [hx1, hx2, hi1, hi2]
    omega

/-- C1: `execute_trade` preserves the single-roster invariant — for every
player id that appears in at most one team of the league, the number of
teams holding that id is unchanged by the trade (in particular an id on
exactly one roster is still on exactly one roster, never duplicated onto a
second team and never orphaned). -/
theorem executeTrade_preserves_unique_roster (s : LeagueState) (tr : Trade) (pid : String)
    (hinv : teamsWith s.teams pid ≤ 1) :
    teamsWith (executeTrade s tr).1.teams pid = teamsWith s.teams pid := by
  rcases hf1 : s.get_team_by_abbreviation tr.team1 with _ | t1
  · have heq : executeTrade s tr = (s, false) := by
      unfold executeTrade
      rw [hf1]
    rw [heq]
  · rcases hf2 : s.get_team_by_abbreviation tr.team2 with _ | t2
    · have heq : executeTrade s tr = (s, false) := by
        unfold executeTrade
        rw [hf1, hf2]
      rw [heq]
    · have hteams : (executeTrade s tr).1.teams =
          updateTeamByAbbr
            (updateTeamByAbbr
              (updateTeamByAbbr
                (updateTeamByAbbr s.teams tr.team1
                  (fun t => { t with players := t.players.filter (fun q => !(tr.team1_players.contains q.id)) }))
                tr.team2
                (fun t => { t with players := t.players.filter (fun q => !(tr.team2_players.contains q.id)) }))
              tr.team1
              (fun t => { t with players := t.players ++ tr.team2_players.filterMap (fun x => t2.players.find? (fun p => p.id == x)) }))
            tr.team2
            (fun t => { t with players := t.players ++ tr.team1_players.filterMap (fun x => t1.players.find? (fun p => p.id == x)) }) := by
        unfold executeTrade
        rw [hf1, hf2]
      unfold teamsWith
      rw [hteams]
      exact countP_roster_swap s.teams tr.team1 tr.team2 tr.team1_players tr.team2_players
        t1 t2 pid hf1 hf2 hinv

/-- C1 witness: in the two-team league `leagueTT` the id `a1` is on exactly
one roster, and executing `tradeTT` keeps it on exactly one roster. -/
theorem executeTrade_preserves_unique_roster_witness :
    teamsWith leagueTT.teams "a1" ≤ 1 ∧
    teamsWith (executeTrade leagueTT tradeTT).1.teams "a1" = teamsWith leagueTT.teams "a1" :=
  ⟨by decide, executeTrade_preserves_unique_roster leagueTT tradeTT "a1" (by decide)⟩

end NbaGm
